import Mathlib

/-!
Verification development for the entity-resolution core of
`top_pt_stream_services.py` (TMDB resolution cascade, credits verifier,
rate limiter, retry wrapper, list update).

The Python functions are shallowly embedded as pure Lean functions.
Network effects are modelled by an explicit environment (`TmdbEnv`)
mapping queries to the responses the service returns.  Python dict
access and truthiness are modelled explicitly: a missing or empty
string is falsy (`optTruthy`), a missing or zero TMDB id is falsy
(ids are `Nat` with `0` encoding "missing or zero", which is
observationally equivalent since `item.get("id")` is only ever used
through truthiness and `str`).  Wall-clock time for the rate limiter
is an integer-valued clock (arbitrary unit); execution between
statements is idealized as instantaneous and `time.sleep(w)` advances
the clock by exactly `w`.
-/

/-! ## Python string primitives -/

/-- Truthiness of an optional string: Python treats `None` and `""` as falsy. -/
def optTruthy : Option String → Bool
  | none => false
  | some s => !(s == "")

/-- The value of `a or ...` chains: keep the string only when truthy. -/
def optTruthyVal : Option String → Option String
  | none => none
  | some s => if s == "" then none else some s

/-- Character-list version of `startswith`. -/
def charsPrefixOf : List Char → List Char → Bool
  | [], _ => true
  | _ :: _, [] => false
  | a :: as, b :: bs => a == b && charsPrefixOf as bs

/-- Does `sub` occur as a contiguous run inside `l`?  (Python `sub in hay`.) -/
def charsSub (sub : List Char) : List Char → Bool
  | [] => charsPrefixOf sub []
  | b :: bs => charsPrefixOf sub (b :: bs) || charsSub sub bs

/-- Python `sub in hay` on strings. -/
def strContainsSub (hay sub : String) : Bool := charsSub sub.data hay.data

/-- Python `str.lower()` (ASCII case mapping, as used on the names here). -/
def pyLower (s : String) : String := String.mk (s.data.map Char.toLower)

/-- Drop leading and trailing whitespace from a character list. -/
def trimChars (cs : List Char) : List Char :=
  ((cs.dropWhile Char.isWhitespace).reverse.dropWhile Char.isWhitespace).reverse

/-- Python `str.strip()` with no arguments: trim both ends. -/
def pyStrip (s : String) : String := String.mk (trimChars s.data)

/-! ## TMDB data model -/

/-- One TMDB search-result item (the fields the cascade reads).
`id = 0` encodes a missing/zero id (both falsy in Python). -/
structure Item where
  id : Nat
  media_type : Option String
  title : Option String
  name : Option String
  release_date : Option String
  first_air_date : Option String
deriving DecidableEq, Repr

/-- A successful TMDB details response with embedded credits and external ids.
Cast and crew members are modelled by their names; a member whose `name`
key is missing reads as `""` via `member.get("name", "")`. -/
structure Details where
  cast : List String
  crew : List String
  imdb_id : Option String
  release_date : Option String
  first_air_date : Option String
deriving DecidableEq, Repr

/-- Outcome of a TMDB details fetch: HTTP 200 with a body, HTTP 404, or any
other failure (other status codes and request exceptions behave alike). -/
inductive DetailsOutcome where
  | ok (d : Details)
  | notFound
  | err
deriving DecidableEq, Repr

/-- The enrichment dict `{tmdb_id, media_type, imdb_id, year}` produced by
`validate_by_credits` / `_extract_result_info`.  `media_type = ""` encodes a
falsy media type. -/
structure Enrichment where
  tmdb_id : Nat
  media_type : String
  imdb_id : Option String
  year : Option Nat
deriving DecidableEq, Repr

/-- The TMDB service as seen by the code: search endpoints return
`none` on a non-200 status or request exception and `some results` on
HTTP 200; the details endpoint is keyed by (is-movie-endpoint, id). -/
structure TmdbEnv where
  searchMovie : String → Option (List Item)
  searchTv : String → Option (List Item)
  searchMulti : String → Option (List Item)
  details : Bool → Nat → DetailsOutcome

/-! ## TMDB enrichment helpers (source lines 290-475) -/

/-- Maximum number of TMDB candidates to validate via the credits API. -/
def CREDITS_VALIDATION_LIMIT : Nat := 20

/-- The fixed article tuple of `_normalize_title`, in source order. -/
def ARTICLES : List String := ["the ", "a ", "an ", "o ", "os ", "as "]

/-- The source's article loop: strip the first matching leading article, then break. -/
def stripLeadingArticle : List String → String → String
  | [], s => s
  | a :: rest, s =>
      if charsPrefixOf a.data s.data then String.mk (s.data.drop a.length)
      else stripLeadingArticle rest s

/-- Normalize a title for comparison (`_normalize_title`): `title.lower().strip()`,
then strip one leading article from `ARTICLES`. -/
def _normalize_title (title : String) : String :=
  stripLeadingArticle ARTICLES (pyStrip (pyLower title))

/-- Shared body of `_extract_year_from_item`: `rd or fad or ""`, then
`int(date_str[:4])` when the string has at least 4 characters, `None` on a
parse failure (modelled as: the first four characters must be digits). -/
def _extract_year_from_dates (rd fad : Option String) : Option Nat :=
  let date_str := ((optTruthyVal rd).getD ((optTruthyVal fad).getD ""))
  if 4 ≤ date_str.length then
    let cs := date_str.data.take 4
    if cs.all Char.isDigit then
      some (cs.foldl (fun n c => 10 * n + (c.toNat - 48)) 0)
    else none
  else none

/-- The function `_extract_year_from_item` on a search-result item. -/
def _extract_year_from_item (item : Item) : Option Nat :=
  _extract_year_from_dates item.release_date item.first_air_date

/-- The function `_extract_year_from_item` applied to a details response body. -/
def _extract_year_from_details (d : Details) : Option Nat :=
  _extract_year_from_dates d.release_date d.first_air_date

/-- Python `a or b` on optional year ints (`0` and `None` are falsy). -/
def pyOrYear (a b : Option Nat) : Option Nat :=
  match a with
  | some y => if y = 0 then b else some y
  | none => b

/-- Source `_extract_result_info`: standard fields from a search result item. -/
def _extract_result_info (item : Item) (media_type_override : Option String) : Enrichment :=
  { tmdb_id := item.id
  , media_type := (optTruthyVal media_type_override).getD (item.media_type.getD "movie")
  , imdb_id := none
  , year := _extract_year_from_item item }

/-- Source `_get_tmdb_title`: `item.get("title") or item.get("name") or ""`. -/
def _get_tmdb_title (item : Item) : String :=
  match optTruthyVal item.title with
  | some t => t
  | none => (optTruthyVal item.name).getD ""

/-- Source `_match_person_in_credits`: scan the full cast and crew lists for a
case-insensitive bidirectional substring match against the person name. -/
def _match_person_in_credits (credits_data : Details) (person_name_lower : String) : Bool :=
  (credits_data.cast ++ credits_data.crew).any (fun member =>
    let member_name := pyLower member
    strContainsSub member_name person_name_lower || strContainsSub person_name_lower member_name)

/-- Endpoint choice in `validate_by_credits`: the item's own `media_type`
first, then the content hint, defaulting to the movie endpoint. -/
def creditsEndpointIsMovie (item : Item) (content_hint : Option String) : Bool :=
  match item.media_type with
  | some "movie" => true
  | some "tv" => false
  | _ =>
    match content_hint with
    | some "movie" => true
    | some "series" => false
    | _ => true

/-- The per-candidate loop body of `validate_by_credits`: fetch details with
credits, return the enrichment for the first credits match; a 404 from the
movie endpoint with no content hint retries the same candidate against the
TV endpoint; every other failure moves on to the next candidate. -/
def validateGo (env : TmdbEnv) (content_hint : Option String) (starring_lower : String) :
    List Item → Option Enrichment
  | [] => none
  | item :: rest =>
    if item.id = 0 then validateGo env content_hint starring_lower rest
    else
      let isMovie := creditsEndpointIsMovie item content_hint
      match env.details isMovie item.id with
      | DetailsOutcome.ok data =>
        if _match_person_in_credits data starring_lower then
          some { tmdb_id := item.id
               , media_type := (optTruthyVal item.media_type).getD (if isMovie then "movie" else "tv")
               , imdb_id := data.imdb_id
               , year := pyOrYear (_extract_year_from_item item) (_extract_year_from_details data) }
        else validateGo env content_hint starring_lower rest
      | DetailsOutcome.notFound =>
        if isMovie && content_hint.isNone then
          match env.details false item.id with
          | DetailsOutcome.ok data2 =>
            if _match_person_in_credits data2 starring_lower then
              some { tmdb_id := item.id
                   , media_type := "tv"
                   , imdb_id := data2.imdb_id
                   , year := pyOrYear (_extract_year_from_item item) (_extract_year_from_details data2) }
            else validateGo env content_hint starring_lower rest
          | _ => validateGo env content_hint starring_lower rest
        else validateGo env content_hint starring_lower rest
      | DetailsOutcome.err => validateGo env content_hint starring_lower rest

/-- Source `validate_by_credits`: check up to `CREDITS_VALIDATION_LIMIT` candidates,
returning full enrichment data for the first credits match.  `apiKey` models
`config.TMDB_API_KEY` being set; `person_role` is carried but (as in the
source) only used for logging, never for matching. -/
def validate_by_credits (env : TmdbEnv) (apiKey : Bool) (candidates : List Item)
    (starring : Option String) (content_hint : Option String) (person_role : String) :
    Option Enrichment :=
  if !apiKey || !(optTruthy starring) then none
  else validateGo env content_hint (pyLower (starring.getD ""))
        (candidates.take CREDITS_VALIDATION_LIMIT)

/-! ## search_tmdb (source lines 805-976) -/

/-- The `media_type_override` as chosen by the endpoint selection in `search_tmdb`. -/
def media_type_override (content_hint : Option String) : Option String :=
  match content_hint with
  | some "movie" => some "movie"
  | some "series" => some "tv"
  | _ => none

/-- Endpoint selection: type-specific search for a concrete hint, multi-search otherwise. -/
def rawSearch (env : TmdbEnv) (title : String) (content_hint : Option String) :
    Option (List Item) :=
  match content_hint with
  | some "movie" => env.searchMovie title
  | some "series" => env.searchTv title
  | _ => env.searchMulti title

/-- The candidate set of step 1: the search results, with "person" results
filtered out when the multi endpoint was used; `none` when the search
itself failed (non-200 status or exception). -/
def searchResultsOf (env : TmdbEnv) (title : String) (content_hint : Option String) :
    Option (List Item) :=
  match rawSearch env title content_hint with
  | none => none
  | some rs =>
      some (if (media_type_override content_hint).isNone then
              rs.filter (fun r => !(r.media_type == some "person"))
            else rs)

/-- Word characters for the `\b` boundaries of the year regex. -/
def isWordChar (c : Char) : Bool := c.isAlphanum || c == '_'

/-- Can a `(19|20)\d{2}` token start with these two characters? -/
def isYearStart (c1 c2 : Char) : Bool := (c1 == '1' && c2 == '9') || (c1 == '2' && c2 == '0')

/-- Leftmost match of the year regex `\b(19|20)\d{2}\b`:
scan positions left to right, tracking the previous character for the
left word boundary. -/
def findYearFrag : Option Char → List Char → Option String
  | _, [] => none
  | prev, c :: cs =>
    match cs with
    | c2 :: c3 :: c4 :: rest =>
      if (match prev with | none => true | some p => !isWordChar p)
          && isYearStart c c2 && c3.isDigit && c4.isDigit
          && (match rest with | [] => true | r :: _ => !isWordChar r) then
        some (String.mk [c, c2, c3, c4])
      else findYearFrag (some c) cs
    | _ => none

/-- The effective release date of an item:
`item.get("release_date") or item.get("first_air_date")`, truthy or nothing. -/
def effReleaseDate (item : Item) : Option String :=
  match optTruthyVal item.release_date with
  | some d => some d
  | none => optTruthyVal item.first_air_date

/-- Step 4 of the cascade: extract a plausible 4-digit year from the hint and
return the first candidate whose release/first-air date starts with it. -/
def yearStep (year_str : String) (results : List Item) : Option Item :=
  match findYearFrag none year_str.data with
  | none => none
  | some frag =>
      results.find? (fun item =>
        match effReleaseDate item with
        | some d => charsPrefixOf frag.data d.data
        | none => false)

/-- The `title_matches` list of step 5: candidates whose normalized display
title equals the normalized query title, in original order. -/
def titleMatches (title : String) (results : List Item) : List Item :=
  results.filter (fun item => _normalize_title (_get_tmdb_title item) == _normalize_title title)

/-- Source `_to_result`: convert an enrichment dict to the `(tmdb_id_str, media_type)`
tuple, with `"Unknown"` for falsy fields. -/
def _to_result (info : Enrichment) : String × String :=
  ((if info.tmdb_id = 0 then "Unknown" else toString info.tmdb_id),
   (if info.media_type = "" then "Unknown" else info.media_type))

/-- Source `_verify_and_return`: verify a resolved candidate via credits when a
person is available; prefer the verified enrichment, else fall back to the
plain search-result info — never to an unresolved result. -/
def _verify_and_return (env : TmdbEnv) (apiKey : Bool) (content_hint starring : Option String)
    (person_role : String) (mto : Option String) (item : Item) : String × String :=
  if optTruthy starring then
    match validate_by_credits env apiKey [item] starring content_hint person_role with
    | some v => _to_result v
    | none => _to_result (_extract_result_info item mto)
  else _to_result (_extract_result_info item mto)

/-- Steps 2-6 of the cascade, applied to the non-empty candidate set fetched in
step 1.  (The `[]` case is unreachable from `search_tmdbAux`, which only calls
this on a non-empty list; we map it to the unresolved sentinel.) -/
def resolveResults (env : TmdbEnv) (apiKey : Bool) (title year_str : String)
    (content_hint starring : Option String) (person_role : String) :
    List Item → String × String
  | [] => ("Unknown", "Unknown")
  | [item] =>
      _verify_and_return env apiKey content_hint starring person_role
        (media_type_override content_hint) item
  | r0 :: r1 :: rest =>
    let results := r0 :: r1 :: rest
    let creditsStep :=
      if optTruthy starring then
        validate_by_credits env apiKey results starring content_hint person_role
      else none
    match creditsStep with
    | some info => _to_result info
    | none =>
      match yearStep year_str results with
      | some item => _to_result (_extract_result_info item (media_type_override content_hint))
      | none =>
        let tms := titleMatches title results
        match tms with
        | [m] => _to_result (_extract_result_info m (media_type_override content_hint))
        | _ => _to_result (_extract_result_info (tms.headD r0) (media_type_override content_hint))

/-- The body of `search_tmdb` as called with `_retried=True`: identical to a
fresh call except that an empty result set fails outright instead of
flipping the hint (`if not _retried and ...` is false). -/
def search_tmdbNoRetry (env : TmdbEnv) (apiKey : Bool) (title year_str : String)
    (content_hint starring : Option String) (person_role : String) : String × String :=
  if apiKey then
    match searchResultsOf env title content_hint with
    | none => ("Unknown", "Unknown")
    | some results =>
      if results.isEmpty then ("Unknown", "Unknown")
      else resolveResults env apiKey title year_str content_hint starring person_role results
  else ("Unknown", "Unknown")

/-- Source `search_tmdb`: the multi-step matching cascade.  A fresh call
(`_retried=False`); on an empty type-specific result set it retries exactly
once with the opposite concrete kind via `search_tmdbNoRetry`. -/
def search_tmdb (env : TmdbEnv) (apiKey : Bool) (title year_str : String)
    (content_hint starring : Option String) (person_role : String) : String × String :=
  if apiKey then
    match searchResultsOf env title content_hint with
    | none => ("Unknown", "Unknown")
    | some results =>
      if results.isEmpty then
        match content_hint with
        | some "movie" =>
            search_tmdbNoRetry env apiKey title year_str (some "series") starring person_role
        | some "series" =>
            search_tmdbNoRetry env apiKey title year_str (some "movie") starring person_role
        | _ => ("Unknown", "Unknown")
      else resolveResults env apiKey title year_str content_hint starring person_role results
  else ("Unknown", "Unknown")

/-- The opposite concrete kind used by the empty-result retry. -/
def flipHint (content_hint : Option String) : Option String :=
  if content_hint = some "movie" then some "series" else some "movie"

/-! ## TMDBRateLimiter (source lines 64-90)

Timestamps live on an integer-valued clock (the unit is irrelevant: only
ordered-ring reasoning is used).  A run is a sequence of call times; the
sequential-execution constraint is that each call starts no earlier than the
time at which the previous call's request was admitted. -/

/-- The rate limiter state: quota, window length, and the recorded
timestamps of admitted requests (oldest first). -/
structure TMDBRateLimiter where
  max_requests : Nat
  time_window : Int
  requests : List Int
deriving DecidableEq, Repr

/-- One call of `wait_if_needed` at clock time `now`: drop entries older than
the window, sleep until the oldest ages out when the quota is full, then
record the admitted request.  Returns the new state and the recorded
(admitted) timestamp. -/
def wait_if_needed (rl : TMDBRateLimiter) (now : Int) : TMDBRateLimiter × Int :=
  let reqs := rl.requests.filter (fun t => decide (now - t < rl.time_window))
  if rl.max_requests ≤ reqs.length then
    let oldest := reqs.headD 0
    let wait_time := rl.time_window - (now - oldest)
    if 0 < wait_time then
      let now2 := now + wait_time
      let reqs2 := reqs.filter (fun t => decide (now2 - t < rl.time_window))
      ({ rl with requests := reqs2 ++ [now2] }, now2)
    else
      ({ rl with requests := reqs ++ [now] }, now)
  else
    ({ rl with requests := reqs ++ [now] }, now)

/-- The admitted timestamps produced by a sequence of calls at the given
start times. -/
def admitSeq (rl : TMDBRateLimiter) : List Int → List Int
  | [] => []
  | now :: rest =>
      (wait_if_needed rl now).2 :: admitSeq (wait_if_needed rl now).1 rest

/-- A call-time sequence is valid when each call starts no earlier than the
admitted timestamp of the previous call (`tprev` bounds the first call). -/
def validCalls (rl : TMDBRateLimiter) (tprev : Int) : List Int → Bool
  | [] => true
  | now :: rest =>
      decide (tprev ≤ now) &&
        validCalls (wait_if_needed rl now).1 (wait_if_needed rl now).2 rest

/-- Membership of a timestamp in the sliding window `(t, t + W]` — the
window semantics of the limiter's own in-window test `now - t < W`. -/
def inWindow (W t a : Int) : Bool := decide (t < a) && decide (a ≤ t + W)

/-! ## Retry decorator (source lines 1092-1110) -/

/-- What the wrapped call can return: the `304` "already satisfied" sentinel
int, or a response object carrying a status code.  The success test
`response and response == 304 or (hasattr(response, "status_code") and
response.status_code in [200, 201])` reduces to: sentinel, or status in
{200, 201} (an int is never a response object and vice versa). -/
inductive CallResult where
  | sentinel
  | resp (status : Nat)
deriving DecidableEq, Repr

/-- The value `config.MAX_RETRIES`. -/
def MAX_RETRIES : Nat := 10

/-- The value `config.BACKOFF_FACTOR`. -/
def BACKOFF_FACTOR : Nat := 2

/-- The retry loop's success condition. -/
def retrySuccess : CallResult → Bool
  | CallResult.sentinel => true
  | CallResult.resp s => s == 200 || s == 201

/-- The loop of `retry_request` over a scripted sequence of call results
(`script i` = what the wrapped call returns on the i-th invocation):
returns the final value (`none` = all attempts failed) and the list of
sleep durations `BACKOFF_FACTOR ** attempt` performed, in order. -/
def retry_request (script : Nat → CallResult) (attempt : Nat) : Nat → Option CallResult × List Nat
  | 0 => (none, [])
  | Nat.succ rem =>
    let r := script attempt
    if retrySuccess r then (some r, [])
    else
      let p := retry_request script (attempt + 1) rem
      (p.1, BACKOFF_FACTOR ^ attempt :: p.2)

/-- A full run of the decorated call: `MAX_RETRIES` attempts starting at 0. -/
def retry_request_run (script : Nat → CallResult) : Option CallResult × List Nat :=
  retry_request script 0 MAX_RETRIES

/-! ## update_list (source lines 1399-1416) -/

/-- The payload handed to `update_list`: the `movies` and `shows` entries,
`none` when the key is absent. -/
structure TraktPayload where
  movies : Option (List Nat)
  shows : Option (List Nat)
deriving DecidableEq, Repr

/-- Truthiness of a payload entry: absent or empty lists are falsy. -/
def payloadEntryTruthy : Option (List Nat) → Bool
  | none => false
  | some l => !l.isEmpty

/-- Externally visible calls `update_list` makes against the live list. -/
inductive ListAction where
  | emptied (slug : String)
  | addedItems (slug : String)
deriving DecidableEq, Repr

/-- One (undecorated) call of `update_list`: when the payload has items,
empty the list and POST the items (returning the POST response); otherwise
skip the sync and return the `304` sentinel.  `post_status` models the
status code the items POST would return. -/
def update_list_once (post_status : Nat) (list_slug : String) (payload : TraktPayload) :
    List ListAction × CallResult :=
  if payloadEntryTruthy payload.movies || payloadEntryTruthy payload.shows then
    ([ListAction.emptied list_slug, ListAction.addedItems list_slug], CallResult.resp post_status)
  else ([], CallResult.sentinel)

/-- The retry loop applied to a call that also performs external actions:
accumulates the actions of every attempt actually executed. -/
def retryWithTrace (call : Nat → List ListAction × CallResult) (attempt : Nat) :
    Nat → List ListAction × Option CallResult × List Nat
  | 0 => ([], none, [])
  | Nat.succ rem =>
    let ar := call attempt
    if retrySuccess ar.2 then (ar.1, some ar.2, [])
    else
      let p := retryWithTrace call (attempt + 1) rem
      (ar.1 ++ p.1, p.2.1, BACKOFF_FACTOR ^ attempt :: p.2.2)

/-- Source `update_list` as deployed: decorated with `retry_request`. -/
def update_list (post_status : Nat) (list_slug : String) (payload : TraktPayload) :
    List ListAction × Option CallResult × List Nat :=
  retryWithTrace (fun _ => update_list_once post_status list_slug payload) 0 MAX_RETRIES

/-! ## Spec-side normalization (for claim C3)

`normalize_title_claimed` follows the claim's words ("lowercasing, stripping
one leading article from the fixed set, and collapsing whitespace");
`normalize_title_amended` follows the amended words ("lowercasing, trimming
leading and trailing whitespace, stripping one leading article"). -/

/-- Squeeze every maximal whitespace run to a single space
(`prevWs` = the previous kept character was produced from whitespace). -/
def squeezeWsAux : Bool → List Char → List Char
  | _, [] => []
  | prevWs, c :: rest =>
    if c.isWhitespace then
      (if prevWs then [] else [' ']) ++ squeezeWsAux true rest
    else c :: squeezeWsAux false rest

/-- Collapse whitespace: trim the ends and squeeze interior runs to one space. -/
def collapseWhitespace (s : String) : String :=
  String.mk (trimChars (squeezeWsAux false s.data))

/-- Strip one leading article, formulated over the article set directly. -/
def stripArticleFound (s : String) : String :=
  match ARTICLES.find? (fun a => charsPrefixOf a.data s.data) with
  | some a => String.mk (s.data.drop a.length)
  | none => s

/-- Modelled from the claim's words: lowercase, strip one leading article,
collapse whitespace. -/
def normalize_title_claimed (title : String) : String :=
  collapseWhitespace (stripArticleFound (pyLower title))

/-- Modelled from the amended words: lowercase, trim leading and trailing
whitespace, strip one leading article. -/
def normalize_title_amended (title : String) : String :=
  stripArticleFound (pyStrip (pyLower title))

/-! ## Helper lemmas: substring matching -/

theorem charsPrefixOf_iff_append (p : List Char) :
    ∀ l, charsPrefixOf p l = true ↔ ∃ t, p ++ t = l := by
  induction p with
  | nil => intro l; simp [charsPrefixOf]
  | cons a as ih =>
    intro l
    cases l with
    | nil => simp [charsPrefixOf]
    | cons b bs =>
      simp only [charsPrefixOf, Bool.and_eq_true, beq_iff_eq, ih, List.cons_append,
        List.cons.injEq]
      constructor
      · rintro ⟨rfl, t, rfl⟩
        exact ⟨t, rfl, rfl⟩
      · rintro ⟨t, rfl, rfl⟩
        exact ⟨rfl, t, rfl⟩

theorem charsSub_iff_append (sub : List Char) :
    ∀ l, charsSub sub l = true ↔ ∃ s t, s ++ sub ++ t = l := by
  intro l
  induction l with
  | nil =>
    simp only [charsSub, charsPrefixOf_iff_append]
    constructor
    · rintro ⟨t, h⟩
      exact ⟨[], t, by simpa using h⟩
    · rintro ⟨s, t, h⟩
      rcases List.append_eq_nil.mp h with ⟨h1, h2⟩
      rcases List.append_eq_nil.mp h1 with ⟨rfl, rfl⟩
      exact ⟨[], rfl⟩
  | cons b bs ih =>
    simp only [charsSub, Bool.or_eq_true, charsPrefixOf_iff_append, ih]
    constructor
    · rintro (⟨t, h⟩ | ⟨s, t, h⟩)
      · exact ⟨[], t, by simpa using h⟩
      · exact ⟨b :: s, t, by simp [h]⟩
    · rintro ⟨s, t, h⟩
      cases s with
      | nil => exact Or.inl ⟨t, by simpa using h⟩
      | cons c s2 =>
        rw [List.cons_append, List.cons_append] at h
        injection h with h1 h2
        exact Or.inr ⟨s2, t, by simpa using h2⟩

theorem charsSub_nil_left (l : List Char) : charsSub [] l = true := by
  cases l <;> simp [charsSub, charsPrefixOf]

/-- Pointwise characterization of the credits matcher: a match is exactly a
bidirectional substring hit on some cast-or-crew member's lowercased name. -/
theorem match_person_iff (credits : Details) (p : String) :
    _match_person_in_credits credits p = true ↔
      ∃ m ∈ credits.cast ++ credits.crew,
        ((∃ s t, s ++ p.data ++ t = (pyLower m).data) ∨
         (∃ s t, s ++ (pyLower m).data ++ t = p.data)) := by
  unfold _match_person_in_credits
  simp only [List.any_eq_true, Bool.or_eq_true, strContainsSub, charsSub_iff_append]

/-- Skeleton lemma: a head candidate with a truthy id, a 200 details
response and a credits match is accepted outright by `validate_by_credits`,
whatever candidates follow it. -/
theorem validate_by_credits_cons_match (env : TmdbEnv) (content_hint : Option String)
    (person_role : String) (s : String) (c : Item) (rest : List Item) (d : Details)
    (hs : s ≠ "") (hid : c.id ≠ 0)
    (hd : env.details (creditsEndpointIsMovie c content_hint) c.id = DetailsOutcome.ok d)
    (hm : _match_person_in_credits d (pyLower s) = true) :
    validate_by_credits env true (c :: rest) (some s) content_hint person_role =
      some { tmdb_id := c.id
           , media_type := (optTruthyVal c.media_type).getD
               (if creditsEndpointIsMovie c content_hint then "movie" else "tv")
           , imdb_id := d.imdb_id
           , year := pyOrYear (_extract_year_from_item c) (_extract_year_from_details d) } := by
  unfold validate_by_credits
  have hopt : optTruthy (some s) = true := by simp [optTruthy, hs]
  rw [hopt]
  have htake : CREDITS_VALIDATION_LIMIT = 19 + 1 := rfl
  rw [htake, List.take_succ_cons]
  unfold validateGo
  simp only [Option.getD_some, if_neg hid, hd, hm, if_pos]
  simp

/-- The outcome of the credits check for one candidate, mirroring one
iteration of the `validate_by_credits` loop body: `some` of the enrichment
when this candidate is accepted, `none` when the loop skips it (falsy id,
failed details fetch, or no credits match). -/
def candidateOutcome (env : TmdbEnv) (content_hint : Option String)
    (starring_lower : String) (item : Item) : Option Enrichment :=
  if item.id = 0 then none
  else
    let isMovie := creditsEndpointIsMovie item content_hint
    match env.details isMovie item.id with
    | DetailsOutcome.ok data =>
      if _match_person_in_credits data starring_lower then
        some { tmdb_id := item.id
             , media_type := (optTruthyVal item.media_type).getD
                 (if isMovie then "movie" else "tv")
             , imdb_id := data.imdb_id
             , year := pyOrYear (_extract_year_from_item item) (_extract_year_from_details data) }
      else none
    | DetailsOutcome.notFound =>
      if isMovie && content_hint.isNone then
        match env.details false item.id with
        | DetailsOutcome.ok data2 =>
          if _match_person_in_credits data2 starring_lower then
            some { tmdb_id := item.id
                 , media_type := "tv"
                 , imdb_id := data2.imdb_id
                 , year := pyOrYear (_extract_year_from_item item)
                     (_extract_year_from_details data2) }
          else none
        | _ => none
      else none
    | DetailsOutcome.err => none

/-- One loop iteration: the head candidate's outcome is returned when it is
accepted, and a skipped head passes control to the rest of the list. -/
theorem validateGo_cons (env : TmdbEnv) (content_hint : Option String) (pl : String)
    (c : Item) (rest : List Item) :
    validateGo env content_hint pl (c :: rest)
      = match candidateOutcome env content_hint pl c with
        | some e => some e
        | none => validateGo env content_hint pl rest := by
  simp only [validateGo]
  unfold candidateOutcome
  by_cases hid : c.id = 0
  · simp [hid]
  · simp only [hid, if_false, ite_false]
    cases hdet : env.details (creditsEndpointIsMovie c content_hint) c.id with
    | ok d =>
      by_cases hm : _match_person_in_credits d pl = true
      · simp [hm]
      · simp [hm]
    | notFound =>
      cases hb : creditsEndpointIsMovie c content_hint && content_hint.isNone
      · simp [hb]
      · simp only [hb, if_true, ite_true]
        cases hdet2 : env.details false c.id with
        | ok d2 =>
          by_cases hm2 : _match_person_in_credits d2 pl = true
          · simp [hm2]
          · simp [hm2]
        | notFound => simp
        | err => simp
    | err => simp

/-- The candidate loop is exactly "first `some` outcome in order": each
candidate is examined in turn, skipped candidates pass control to the rest
of the list, and the first accepted candidate's enrichment is returned. -/
theorem validateGo_eq_findSome (env : TmdbEnv) (content_hint : Option String) (pl : String) :
    ∀ l, validateGo env content_hint pl l
      = l.findSome? (candidateOutcome env content_hint pl) := by
  intro l
  induction l with
  | nil => rfl
  | cons c rest ih =>
    rw [validateGo_cons, List.findSome?_cons, ih]
    cases candidateOutcome env content_hint pl c <;> rfl

/-- Any credits body containing a member with an empty (or missing) name
matches every person name, since the empty string is a substring of
every string. -/
theorem match_person_of_empty_name (cr : Details) (q : String)
    (hmem : "" ∈ cr.cast ++ cr.crew) : _match_person_in_credits cr q = true := by
  unfold _match_person_in_credits
  rw [List.any_eq_true]
  refine ⟨"", hmem, ?_⟩
  simp [strContainsSub, pyLower, charsSub_nil_left]

/-- C6: `validate_by_credits` examines at most the first
`CREDITS_VALIDATION_LIMIT = 20` candidates in their given order; a candidate
matches exactly when the (lowercased) reference person name is a substring
of, or contains, the lowercased name of some member of the candidate's cast
or crew lists (both lists searched, `person_role` never consulted for
matching); on a matching head candidate it returns that candidate's
enriched identity without examining the remaining candidates (the result is
independent of `rest`); the whole verifier equals "the first accepted
outcome, scanning the first 20 candidates in order" (`List.findSome?`),
so a skipped candidate (falsy id, failed fetch, or no match) passes
control to the rest of the list and an accepted candidate stops the scan. -/
theorem validate_by_credits_spec
    (env : TmdbEnv) (apiKey : Bool) (candidates : List Item) (starring : Option String)
    (content_hint : Option String) (person_role : String)
    (credits : Details) (p : String)
    (s : String) (c : Item) (rest : List Item) (d : Details)
    (hs : s ≠ "") (hid : c.id ≠ 0)
    (hd : env.details (creditsEndpointIsMovie c content_hint) c.id = DetailsOutcome.ok d)
    (hm : _match_person_in_credits d (pyLower s) = true) :
    validate_by_credits env apiKey candidates starring content_hint person_role =
      validate_by_credits env apiKey (candidates.take CREDITS_VALIDATION_LIMIT)
        starring content_hint person_role
    ∧ (_match_person_in_credits credits p = true ↔
        ∃ m ∈ credits.cast ++ credits.crew,
          ((∃ s1 t, s1 ++ p.data ++ t = (pyLower m).data) ∨
           (∃ s1 t, s1 ++ (pyLower m).data ++ t = p.data)))
    ∧ validate_by_credits env true (c :: rest) (some s) content_hint person_role =
        some { tmdb_id := c.id
             , media_type := (optTruthyVal c.media_type).getD
                 (if creditsEndpointIsMovie c content_hint then "movie" else "tv")
             , imdb_id := d.imdb_id
             , year := pyOrYear (_extract_year_from_item c) (_extract_year_from_details d) }
    ∧ (∀ s2 : String, s2 ≠ "" → ∀ cands2 : List Item,
        validate_by_credits env true cands2 (some s2) content_hint person_role
          = (cands2.take CREDITS_VALIDATION_LIMIT).findSome?
              (candidateOutcome env content_hint (pyLower s2)))
    ∧ (∀ (c2 : Item) (rest2 : List Item),
        candidateOutcome env content_hint (pyLower s) c2 = none →
        validateGo env content_hint (pyLower s) (c2 :: rest2)
          = validateGo env content_hint (pyLower s) rest2)
    ∧ (∀ (c2 : Item) (rest2 : List Item) (e : Enrichment),
        candidateOutcome env content_hint (pyLower s) c2 = some e →
        validateGo env content_hint (pyLower s) (c2 :: rest2) = some e) := by
  refine ⟨?_, match_person_iff credits p,
    validate_by_credits_cons_match env content_hint person_role s c rest d hs hid hd hm,
    ?_, ?_, ?_⟩
  · simp [validate_by_credits, List.take_take]
  · intro s2 hs2 cands2
    unfold validate_by_credits
    have hopt : optTruthy (some s2) = true := by simp [optTruthy, hs2]
    rw [hopt]
    simp only [Bool.not_true, Bool.or_self, Bool.false_eq_true, if_false, ite_false]
    exact validateGo_eq_findSome env content_hint (pyLower s2) _
  · intro c2 rest2 hnone
    rw [validateGo_eq_findSome, validateGo_eq_findSome, List.findSome?_cons, hnone]
  · intro c2 rest2 e hsome
    rw [validateGo_eq_findSome, List.findSome?_cons, hsome]

/-- A concrete TMDB environment with three candidates: the first fetches
fine but its credits lack the reference person, the second's details fetch
errors out, and only the third carries the reference person (in its crew). -/
def envC6 : TmdbEnv :=
  { searchMovie := fun _ => none
  , searchTv := fun _ => none
  , searchMulti := fun _ => none
  , details := fun _ i =>
      if i = 11 then
        DetailsOutcome.ok ⟨["Alice Alpha"], [], some "tt0000011", some "2001-01-01", none⟩
      else if i = 13 then
        DetailsOutcome.ok ⟨["Carol Gamma"], ["Bob Beta"], some "tt0000013", some "2003-03-03", none⟩
      else DetailsOutcome.err }

theorem validate_by_credits_spec_witness :
    validate_by_credits envC6 true
      [⟨11, some "movie", some "First", none, some "2001-01-01", none⟩,
       ⟨12, some "movie", some "Second", none, some "2002-02-02", none⟩,
       ⟨13, some "movie", some "Third", none, some "2003-03-03", none⟩]
      (some "Bob Beta") (some "movie") "cast"
      = some ⟨13, "movie", some "tt0000013", some 2003⟩ := by
  have h := (validate_by_credits_spec envC6 true [] none (some "movie") "cast"
    ⟨[], [], none, none, none⟩ "" "Bob Beta"
    ⟨13, some "movie", some "Third", none, some "2003-03-03", none⟩ []
    ⟨["Carol Gamma"], ["Bob Beta"], some "tt0000013", some "2003-03-03", none⟩
    (by decide) (by decide) (by decide) (by decide)).2.2.2.1
  rw [h "Bob Beta" (by decide)
    [⟨11, some "movie", some "First", none, some "2001-01-01", none⟩,
     ⟨12, some "movie", some "Second", none, some "2002-02-02", none⟩,
     ⟨13, some "movie", some "Third", none, some "2003-03-03", none⟩]]
  decide

/-- C10: a cast or crew member with an empty or missing name makes the
credits matcher report a match for every reference person name, so
`validate_by_credits` accepts the first such candidate (truthy id, 200
details response) outright, whether or not the reference person appears
in its credits. -/
theorem empty_credit_name_matches_all
    (credits : Details) (p : String) (hmem : "" ∈ credits.cast ++ credits.crew)
    (env : TmdbEnv) (content_hint : Option String) (person_role : String)
    (s : String) (c : Item) (rest : List Item) (d : Details)
    (hs : s ≠ "") (hid : c.id ≠ 0)
    (hd : env.details (creditsEndpointIsMovie c content_hint) c.id = DetailsOutcome.ok d)
    (hmem2 : "" ∈ d.cast ++ d.crew) :
    _match_person_in_credits credits p = true
    ∧ validate_by_credits env true (c :: rest) (some s) content_hint person_role =
        some { tmdb_id := c.id
             , media_type := (optTruthyVal c.media_type).getD
                 (if creditsEndpointIsMovie c content_hint then "movie" else "tv")
             , imdb_id := d.imdb_id
             , year := pyOrYear (_extract_year_from_item c) (_extract_year_from_details d) } :=
  ⟨match_person_of_empty_name credits p hmem,
   validate_by_credits_cons_match env content_hint person_role s c rest d hs hid hd
     (match_person_of_empty_name d (pyLower s) hmem2)⟩

/-- A details body whose first crew member has a missing name, and which
does not contain the reference person used in the witness at all. -/
def envC10 : TmdbEnv :=
  { searchMovie := fun _ => none
  , searchTv := fun _ => none
  , searchMulti := fun _ => none
  , details := fun _ _ =>
      DetailsOutcome.ok ⟨["Somebody Else"], [""], some "tt0000001", none, some "2011-09-17"⟩ }

theorem empty_credit_name_matches_all_witness :
    validate_by_credits envC10 true [⟨(9 : Nat), some "tv", some "Unrelated Show", none, none, none⟩]
      (some "Zorro The Great") none "director"
      = some ⟨9, "tv", some "tt0000001", some 2011⟩ := by
  have h := (empty_credit_name_matches_all
    ⟨["Somebody Else"], [""], some "tt0000001", none, some "2011-09-17"⟩ "zorro the great"
    (by decide) envC10 none "director" "Zorro The Great"
    ⟨(9 : Nat), some "tv", some "Unrelated Show", none, none, none⟩ []
    ⟨["Somebody Else"], [""], some "tt0000001", none, some "2011-09-17"⟩
    (by decide) (by decide) (by decide) (by decide)).2
  rw [h]
  decide

/-! ## Helper lemmas: retry loop -/

theorem retry_request_first_success (script : Nat → CallResult) :
    ∀ (k a fuel : Nat), k < fuel →
      (∀ i, i < k → retrySuccess (script (a + i)) = false) →
      retrySuccess (script (a + k)) = true →
      retry_request script a fuel =
        (some (script (a + k)), (List.range k).map (fun i => BACKOFF_FACTOR ^ (a + i))) := by
  intro k
  induction k with
  | zero =>
    intro a fuel hk _ hsucc
    cases fuel with
    | zero => omega
    | succ rem =>
      simp only [Nat.add_zero] at hsucc
      simp [retry_request, hsucc]
  | succ k ih =>
    intro a fuel hk hfail hsucc
    cases fuel with
    | zero => omega
    | succ rem =>
      have h0 : retrySuccess (script a) = false := by
        have := hfail 0 (Nat.succ_pos k)
        simpa using this
      have hrec := ih (a + 1) rem (by omega)
        (fun i hi => by
          have := hfail (i + 1) (by omega)
          simpa [Nat.add_assoc, Nat.add_comm 1 i] using this)
        (by
          have : a + 1 + k = a + (k + 1) := by omega
          rw [this]; exact hsucc)
      simp only [retry_request, h0, Bool.false_eq_true, if_neg, ite_false, hrec]
      have harith : a + 1 + k = a + (k + 1) := by omega
      rw [harith]
      refine Prod.ext rfl ?_
      simp only [List.range_succ_eq_map, List.map_cons, List.map_map, Nat.add_zero]
      refine congrArg (BACKOFF_FACTOR ^ a :: ·) ?_
      refine List.map_congr_left ?_
      intro i _
      simp only [Function.comp_apply]
      congr 1
      omega

theorem retry_request_all_fail (script : Nat → CallResult)
    (hall : ∀ i, retrySuccess (script i) = false) :
    ∀ (fuel a : Nat),
      retry_request script a fuel =
        (none, (List.range fuel).map (fun i => BACKOFF_FACTOR ^ (a + i))) := by
  intro fuel
  induction fuel with
  | zero => intro a; simp [retry_request]
  | succ rem ih =>
    intro a
    simp only [retry_request, hall a, Bool.false_eq_true, if_neg, ite_false, ih (a + 1)]
    refine Prod.ext rfl ?_
    simp only [List.range_succ_eq_map, List.map_cons, List.map_map, Nat.add_zero]
    refine congrArg (BACKOFF_FACTOR ^ a :: ·) ?_
    refine List.map_congr_left ?_
    intro i _
    simp only [Function.comp_apply]
    congr 1
    omega

/-- C8: the retry wrapper returns the wrapped call's value as soon as it is
the `304` sentinel or carries status 200/201, sleeping
`BACKOFF_FACTOR ^ attempt` seconds after each failed attempt, and returns
the `None` failure marker after `MAX_RETRIES` consecutive failures, having
slept `BACKOFF_FACTOR ^ 0 .. BACKOFF_FACTOR ^ (MAX_RETRIES - 1)`. -/
theorem retry_request_backoff_spec (script : Nat → CallResult) (k : Nat)
    (hk : k < MAX_RETRIES)
    (hfail : ∀ i, i < k → retrySuccess (script i) = false)
    (hsucc : retrySuccess (script k) = true)
    (script2 : Nat → CallResult) (hall : ∀ i, retrySuccess (script2 i) = false) :
    retrySuccess CallResult.sentinel = true
    ∧ (∀ st, retrySuccess (CallResult.resp st) = ((st == 200) || (st == 201)))
    ∧ retry_request_run script =
        (some (script k), (List.range k).map (fun i => BACKOFF_FACTOR ^ i))
    ∧ retry_request_run script2 =
        (none, (List.range MAX_RETRIES).map (fun i => BACKOFF_FACTOR ^ i)) := by
  refine ⟨rfl, fun st => rfl, ?_, ?_⟩
  · have h := retry_request_first_success script k 0 MAX_RETRIES hk
      (fun i hi => by simpa using hfail i hi) (by simpa using hsucc)
    simpa [retry_request_run] using h
  · have h := retry_request_all_fail script2 hall MAX_RETRIES 0
    simpa [retry_request_run] using h

theorem retry_request_backoff_spec_witness :
    retry_request_run (fun i => if i = 2 then CallResult.resp 201 else CallResult.resp 500)
      = (some (CallResult.resp 201), [1, 2])
    ∧ retry_request_run (fun _ => CallResult.resp 500)
      = (none, [1, 2, 4, 8, 16, 32, 64, 128, 256, 512]) := by
  have h := retry_request_backoff_spec
    (fun i => if i = 2 then CallResult.resp 201 else CallResult.resp 500) 2
    (by decide) (by decide) (by decide)
    (fun _ => CallResult.resp 500) (fun i => rfl)
  refine ⟨?_, ?_⟩
  · rw [h.2.2.1]; decide
  · rw [h.2.2.2]; decide

/-- C9: a payload whose `movies` and `shows` entries are both empty or
absent makes `update_list` skip the sync entirely — no empty-list call, no
item-add call — and return the `304` "already satisfied" sentinel, which
the retry wrapper counts as success (one attempt, no sleeps). -/
theorem update_list_empty_payload (post_status : Nat) (list_slug : String)
    (payload : TraktPayload)
    (hm : payloadEntryTruthy payload.movies = false)
    (hs : payloadEntryTruthy payload.shows = false) :
    update_list post_status list_slug payload = ([], some CallResult.sentinel, [])
    ∧ retrySuccess CallResult.sentinel = true := by
  refine ⟨?_, rfl⟩
  have honce : update_list_once post_status list_slug payload = ([], CallResult.sentinel) := by
    unfold update_list_once
    rw [hm, hs]
    simp
  unfold update_list
  have h10 : MAX_RETRIES = 9 + 1 := rfl
  rw [h10]
  unfold retryWithTrace
  rw [honce]
  simp [retrySuccess]

theorem update_list_empty_payload_witness :
    update_list 201 "top-portugal-netflix-movies" ⟨none, some []⟩
      = ([], some CallResult.sentinel, []) :=
  (update_list_empty_payload 201 "top-portugal-netflix-movies" ⟨none, some []⟩
    (by decide) (by decide)).1

/-- C5: a type-specific search returning zero results is retried exactly
once with the opposite concrete kind; a retried call whose search is again
empty returns the unresolved sentinel directly, with no further flip. -/
theorem search_tmdb_empty_retry_flip (env : TmdbEnv) (title year_str : String)
    (starring : Option String) (person_role : String) (content_hint : Option String)
    (hhint : content_hint = some "movie" ∨ content_hint = some "series")
    (hempty : searchResultsOf env title content_hint = some []) :
    (search_tmdb env true title year_str content_hint starring person_role
       = search_tmdbNoRetry env true title year_str (flipHint content_hint) starring person_role)
    ∧ (∀ h2, searchResultsOf env title h2 = some [] →
         search_tmdbNoRetry env true title year_str h2 starring person_role
           = ("Unknown", "Unknown"))
    ∧ (searchResultsOf env title (flipHint content_hint) = some [] →
         search_tmdb env true title year_str content_hint starring person_role
           = ("Unknown", "Unknown")) := by
  have part2 : ∀ h2, searchResultsOf env title h2 = some [] →
      search_tmdbNoRetry env true title year_str h2 starring person_role
        = ("Unknown", "Unknown") := by
    intro h2 hh2
    unfold search_tmdbNoRetry
    rw [hh2]
    simp
  have part1 : search_tmdb env true title year_str content_hint starring person_role
      = search_tmdbNoRetry env true title year_str (flipHint content_hint) starring
          person_role := by
    rcases hhint with rfl | rfl
    · unfold search_tmdb
      rw [hempty]
      simp [flipHint]
    · unfold search_tmdb
      rw [hempty]
      simp [flipHint]
  exact ⟨part1, part2, fun hflip => part1.trans (part2 _ hflip)⟩

/-- A search environment with no results at all. -/
def envEmpty : TmdbEnv :=
  { searchMovie := fun _ => some []
  , searchTv := fun _ => some []
  , searchMulti := fun _ => some []
  , details := fun _ _ => DetailsOutcome.err }

theorem search_tmdb_empty_retry_flip_witness :
    search_tmdb envEmpty true "Nonexistent Title" "" (some "movie") none "cast"
      = ("Unknown", "Unknown") := by
  have h := (search_tmdb_empty_retry_flip envEmpty "Nonexistent Title" "" none "cast"
    (some "movie") (Or.inl rfl) (by decide)).2.2 (by decide)
  exact h

/-- The Matrix environment: a movie search with two candidates, only the
second of which has the reference person in its credits. -/
def envMatrix : TmdbEnv :=
  { searchMovie := fun _ => some
      [⟨5, none, some "Matrix", none, some "1999-03-31", none⟩,
       ⟨7, none, some "Matrix Reloaded", none, some "2003-05-15", none⟩]
  , searchTv := fun _ => some []
  , searchMulti := fun _ => some []
  , details := fun _ i =>
      if i = 7 then
        DetailsOutcome.ok ⟨["Keanu Reeves"], [], some "tt0234215", some "2003-05-15", none⟩
      else DetailsOutcome.err }

/-- C1: with more than one candidate and a non-empty reference person, a
credits-verifier match is accepted immediately — the result is that
enriched identity for every `year_str`, so the year, exact-title and
popularity steps are never consulted. -/
theorem credits_match_accepted_immediately (env : TmdbEnv) (title : String)
    (content_hint : Option String) (s : String) (person_role : String)
    (results : List Item) (info : Enrichment)
    (hs : s ≠ "")
    (hres : searchResultsOf env title content_hint = some results)
    (hlen : 2 ≤ results.length)
    (hmatch : validate_by_credits env true results (some s) content_hint person_role
      = some info) :
    ∀ year_str, search_tmdb env true title year_str content_hint (some s) person_role
      = _to_result info := by
  intro year_str
  rcases results with _ | ⟨r0, rs⟩
  · simp at hlen
  rcases rs with _ | ⟨r1, rest⟩
  · simp at hlen
  unfold search_tmdb
  rw [hres]
  have hopt : optTruthy (some s) = true := by simp [optTruthy, hs]
  simp only [List.isEmpty_cons, if_true, Bool.false_eq_true, if_false, ite_false]
  unfold resolveResults
  simp [hopt, hmatch]

theorem credits_match_accepted_immediately_witness :
    search_tmdb envMatrix true "The Matrix" "1999" (some "movie") (some "Keanu Reeves") "cast"
      = ("7", "movie") := by
  have h := credits_match_accepted_immediately envMatrix "The Matrix" (some "movie")
    "Keanu Reeves" "cast"
    [⟨5, none, some "Matrix", none, some "1999-03-31", none⟩,
     ⟨7, none, some "Matrix Reloaded", none, some "2003-05-15", none⟩]
    ⟨7, "movie", some "tt0234215", some 2003⟩
    (by decide) (by decide) (by decide) (by decide) "1999"
  rw [h]
  decide

/-- Steps 4-6 with the credits step yielding nothing and the year step
yielding nothing: the cascade returns the first exact-title match when one
exists, else the first candidate in the catalog's original order. -/
theorem search_fallback_eq (env : TmdbEnv) (title year_str : String)
    (content_hint starring : Option String) (person_role : String)
    (r0 r1 : Item) (rest : List Item)
    (hres : searchResultsOf env title content_hint = some (r0 :: r1 :: rest))
    (hcred : optTruthy starring = true →
      validate_by_credits env true (r0 :: r1 :: rest) starring content_hint person_role = none)
    (hyear : yearStep year_str (r0 :: r1 :: rest) = none) :
    search_tmdb env true title year_str content_hint starring person_role
      = _to_result (_extract_result_info ((titleMatches title (r0 :: r1 :: rest)).headD r0)
          (media_type_override content_hint)) := by
  unfold search_tmdb
  rw [hres]
  simp only [List.isEmpty_cons, if_true, Bool.false_eq_true, if_false, ite_false]
  unfold resolveResults
  have hstep : (if optTruthy starring then
      validate_by_credits env true (r0 :: r1 :: rest) starring content_hint person_role
    else none) = none := by
    cases h : optTruthy starring
    · simp
    · simp [hcred h]
  simp only [hstep, hyear]
  rcases htm : titleMatches title (r0 :: r1 :: rest) with _ | ⟨m, _ | ⟨m2, ms⟩⟩ <;>
    simp [htm]

/-- C2: when the candidate set is non-empty, no earlier step accepted and
the cascade reaches the terminal fallback, `search_tmdb` returns the first
candidate whose normalized display title equals the normalized query title
if any exists, else the first candidate in the catalog's original order —
and (whenever that candidate's media type is a genuine kind string) the
result is not the unresolved sentinel. -/
theorem terminal_fallback_returns_candidate (env : TmdbEnv) (title year_str : String)
    (content_hint starring : Option String) (person_role : String)
    (r0 r1 : Item) (rest : List Item)
    (hres : searchResultsOf env title content_hint = some (r0 :: r1 :: rest))
    (hcred : optTruthy starring = true →
      validate_by_credits env true (r0 :: r1 :: rest) starring content_hint person_role = none)
    (hyear : yearStep year_str (r0 :: r1 :: rest) = none) :
    search_tmdb env true title year_str content_hint starring person_role
      = _to_result (_extract_result_info ((titleMatches title (r0 :: r1 :: rest)).headD r0)
          (media_type_override content_hint))
    ∧ ((_extract_result_info ((titleMatches title (r0 :: r1 :: rest)).headD r0)
          (media_type_override content_hint)).media_type ≠ "" →
       (_extract_result_info ((titleMatches title (r0 :: r1 :: rest)).headD r0)
          (media_type_override content_hint)).media_type ≠ "Unknown" →
       search_tmdb env true title year_str content_hint starring person_role
         ≠ ("Unknown", "Unknown")) := by
  have hmain := search_fallback_eq env title year_str content_hint starring person_role
    r0 r1 rest hres hcred hyear
  refine ⟨hmain, fun hne hnu hcontra => ?_⟩
  rw [hmain] at hcontra
  apply hnu
  unfold _to_result at hcontra
  rw [Prod.mk.injEq] at hcontra
  rcases hcontra with ⟨h1, h2⟩
  rwa [if_neg hne] at h2

theorem terminal_fallback_returns_candidate_witness :
    search_tmdb envMatrix true "The Matrix" "" (some "movie") none "cast"
      = ("5", "movie") := by
  have h := (terminal_fallback_returns_candidate envMatrix "The Matrix" "" (some "movie")
    none "cast"
    ⟨5, none, some "Matrix", none, some "1999-03-31", none⟩
    ⟨7, none, some "Matrix Reloaded", none, some "2003-05-15", none⟩ []
    (by decide) (by decide) (by decide)).1
  rw [h]
  decide

/-! ## C3: the normalization -/

theorem stripLeadingArticle_eq_find (l : List String) (s : String) :
    stripLeadingArticle l s =
      match l.find? (fun a => charsPrefixOf a.data s.data) with
      | some a => String.mk (s.data.drop a.length)
      | none => s := by
  induction l with
  | nil => rfl
  | cons a rest ih =>
    by_cases h : charsPrefixOf a.data s.data = true
    · simp [stripLeadingArticle, List.find?_cons, h]
    · have hf : charsPrefixOf a.data s.data = false := by simpa using h
      simp only [stripLeadingArticle, List.find?_cons, hf, Bool.false_eq_true, if_false,
        ite_false]
      exact ih

/-- C3 counterexample: the source normalization does not collapse interior
whitespace — it only lowercases, trims the ends and strips one leading
article — so it disagrees with the claimed normalization on a title with a
doubled interior space. -/
theorem normalize_title_not_collapsing :
    _normalize_title "voo  doo" ≠ normalize_title_claimed "voo  doo" := by decide

/-- C3 amended: the normalization lowercases, trims leading and trailing
whitespace and strips one leading article from the fixed set; the
exact-title step accepts the unique candidate whose normalized display
title equals the normalized query title, and with zero or several equal
matches the result is the terminal fallback's choice. -/
theorem normalize_title_amended_and_unique_match (env : TmdbEnv)
    (title year_str : String) (content_hint starring : Option String) (person_role : String)
    (r0 r1 : Item) (rest : List Item) (m : Item)
    (hres : searchResultsOf env title content_hint = some (r0 :: r1 :: rest))
    (hcred : optTruthy starring = true →
      validate_by_credits env true (r0 :: r1 :: rest) starring content_hint person_role = none)
    (hyear : yearStep year_str (r0 :: r1 :: rest) = none) :
    (∀ t, _normalize_title t = normalize_title_amended t)
    ∧ (titleMatches title (r0 :: r1 :: rest) = [m] →
        search_tmdb env true title year_str content_hint starring person_role
          = _to_result (_extract_result_info m (media_type_override content_hint)))
    ∧ ((titleMatches title (r0 :: r1 :: rest)).length ≠ 1 →
        search_tmdb env true title year_str content_hint starring person_role
          = _to_result (_extract_result_info ((titleMatches title (r0 :: r1 :: rest)).headD r0)
              (media_type_override content_hint))) := by
  have hmain := search_fallback_eq env title year_str content_hint starring person_role
    r0 r1 rest hres hcred hyear
  refine ⟨?_, fun htm => ?_, fun _ => hmain⟩
  · intro t
    unfold _normalize_title normalize_title_amended stripArticleFound
    rw [stripLeadingArticle_eq_find]
  · rw [hmain, htm]
    rfl

theorem normalize_title_amended_and_unique_match_witness :
    (_normalize_title "The  Matrix " = normalize_title_amended "The  Matrix ")
    ∧ search_tmdb envMatrix true "The Matrix" "x" (some "movie") none "director"
        = ("5", "movie") := by
  have h := normalize_title_amended_and_unique_match envMatrix "The Matrix" "x"
    (some "movie") none "director"
    ⟨5, none, some "Matrix", none, some "1999-03-31", none⟩
    ⟨7, none, some "Matrix Reloaded", none, some "2003-05-15", none⟩ []
    ⟨5, none, some "Matrix", none, some "1999-03-31", none⟩
    (by decide) (by decide) (by decide)
  refine ⟨h.1 "The  Matrix ", ?_⟩
  rw [h.2.1 (by decide)]
  decide

/-- C4: a search with exactly one remaining candidate accepts it: the
result carries that candidate's catalog id and kind whether or not the
credits verification attempted on it succeeds — a failed verification never
produces the unresolved sentinel.  The shape hypothesis pins the two
configurations the code produces (type-specific search results carry no
`media_type`; multi-search results carry a concrete one), and `hnf`
rules out the movie-endpoint 404 special case. -/
theorem singleton_candidate_accepted (env : TmdbEnv) (title year_str : String)
    (content_hint starring : Option String) (person_role : String) (item : Item)
    (hres : searchResultsOf env title content_hint = some [item])
    (hshape : ((content_hint = some "movie" ∨ content_hint = some "series")
        ∧ item.media_type = none)
      ∨ (content_hint = none
        ∧ (item.media_type = some "movie" ∨ item.media_type = some "tv")))
    (hnf : env.details true item.id ≠ DetailsOutcome.notFound) :
    search_tmdb env true title year_str content_hint starring person_role
      = ((if item.id = 0 then "Unknown" else toString item.id),
         (_extract_result_info item (media_type_override content_hint)).media_type) := by
  have fact1 : (optTruthyVal item.media_type).getD
      (if creditsEndpointIsMovie item content_hint then "movie" else "tv")
      = (_extract_result_info item (media_type_override content_hint)).media_type := by
    rcases hshape with ⟨hh | hh, hmt⟩ | ⟨hh, hmt | hmt⟩ <;> subst hh <;>
      simp [creditsEndpointIsMovie, _extract_result_info, media_type_override,
        optTruthyVal, hmt]
  have fact2 : (_extract_result_info item (media_type_override content_hint)).media_type
      ≠ "" := by
    rcases hshape with ⟨hh | hh, hmt⟩ | ⟨hh, hmt | hmt⟩ <;> subst hh <;>
      simp [_extract_result_info, media_type_override, optTruthyVal, hmt]
  have hto : _to_result (_extract_result_info item (media_type_override content_hint))
      = ((if item.id = 0 then "Unknown" else toString item.id),
         (_extract_result_info item (media_type_override content_hint)).media_type) := by
    unfold _to_result
    rw [if_neg fact2]
    rfl
  unfold search_tmdb
  rw [hres]
  simp only [List.isEmpty_cons, Bool.false_eq_true, if_false, ite_false, if_true]
  unfold resolveResults _verify_and_return
  cases hst : optTruthy starring
  · simp only [Bool.false_eq_true, if_false, ite_false]
    exact hto
  · simp only [hst, if_true, ite_true]
    unfold validate_by_credits
    rw [hst]
    simp only [Bool.not_true, Bool.or_self, Bool.false_eq_true, if_false, ite_false]
    have htake : [item].take CREDITS_VALIDATION_LIMIT = [item] := rfl
    rw [htake]
    simp only [validateGo]
    by_cases hid : item.id = 0
    · simp only [hid, if_true, ite_true]
      simpa [hid] using hto
    · simp only [hid, if_false, ite_false]
      cases hdet : env.details (creditsEndpointIsMovie item content_hint) item.id with
      | ok d =>
        by_cases hm2 : _match_person_in_credits d (pyLower (starring.getD "")) = true
        · simp only [hm2, if_true, ite_true]
          unfold _to_result
          simp only [fact1]
          rw [if_neg fact2]
          simp [hid]
        · have hm2f : _match_person_in_credits d (pyLower (starring.getD "")) = false := by
            simpa using hm2
          simp only [hm2f, Bool.false_eq_true, if_false, ite_false]
          simpa [hid] using hto
      | notFound =>
        cases hiM : creditsEndpointIsMovie item content_hint
        · rw [hiM] at hdet
          simp only [hiM, Bool.false_and, Bool.false_eq_true, if_false, ite_false]
          simpa [hid] using hto
        · rw [hiM] at hdet
          exact absurd hdet hnf
      | err =>
        simpa [hid] using hto

/-- A singleton movie search whose details endpoint always errors, so
credits verification necessarily fails. -/
def envC4 : TmdbEnv :=
  { searchMovie := fun _ => some [⟨42, none, some "Solo Flick", none, some "2020-01-01", none⟩]
  , searchTv := fun _ => some []
  , searchMulti := fun _ => some []
  , details := fun _ _ => DetailsOutcome.err }

theorem singleton_candidate_accepted_witness :
    search_tmdb envC4 true "Solo Flick" "1987" (some "movie") (some "Nobody Here") "cast"
      = ("42", "movie") := by
  have h := singleton_candidate_accepted envC4 "Solo Flick" "1987" (some "movie")
    (some "Nobody Here") "cast" ⟨42, none, some "Solo Flick", none, some "2020-01-01", none⟩
    (by decide) (Or.inl ⟨Or.inl rfl, rfl⟩) (by decide)
  rw [h]
  decide

/-! ## C7: rate limiter helper lemmas -/

/-- Characterization of `wait_if_needed` below quota: no wait, the call is
admitted at `now`. -/
theorem wait_if_needed_under (rl : TMDBRateLimiter) (now : Int)
    (hunder : ¬ rl.max_requests ≤
      (rl.requests.filter (fun t => decide (now - t < rl.time_window))).length) :
    wait_if_needed rl now
      = ({ rl with requests :=
            (rl.requests.filter (fun t => decide (now - t < rl.time_window))) ++ [now] },
         now) := by
  unfold wait_if_needed
  dsimp only
  rw [if_neg hunder]

/-- Characterization of `wait_if_needed` at quota: the caller sleeps until
the oldest in-window entry ages out, re-filters, and is admitted at
`now + (W - (now - oldest))`. -/
theorem wait_if_needed_full (rl : TMDBRateLimiter) (now : Int) (o : Int) (tl : List Int)
    (hcons : rl.requests.filter (fun t => decide (now - t < rl.time_window)) = o :: tl)
    (hfull : rl.max_requests ≤ (o :: tl).length)
    (hwt : 0 < rl.time_window - (now - o)) :
    wait_if_needed rl now
      = ({ rl with requests :=
            ((o :: tl).filter
              (fun t => decide (now + (rl.time_window - (now - o)) - t < rl.time_window)))
              ++ [now + (rl.time_window - (now - o))] },
         now + (rl.time_window - (now - o))) := by
  unfold wait_if_needed
  dsimp only
  rw [hcons]
  dsimp only [List.headD]
  rw [if_pos hfull, if_pos hwt]

/-- A filter with an upward-closed predicate cuts a sorted list into a bad
prefix and the filtered suffix. -/
theorem filter_suffix_of_sorted (p : Int → Bool)
    (hp : ∀ x y : Int, x ≤ y → p x = true → p y = true) :
    ∀ l : List Int, l.Sorted (· ≤ ·) →
      ∃ d, l = d ++ l.filter p ∧ ∀ x ∈ d, p x = false := by
  intro l
  induction l with
  | nil => intro _; exact ⟨[], by simp, by simp⟩
  | cons a as ih =>
    intro hl
    rw [List.sorted_cons] at hl
    obtain ⟨hab, has⟩ := hl
    cases hpa : p a
    · obtain ⟨d, hd1, hd2⟩ := ih has
      refine ⟨a :: d, ?_, ?_⟩
      · rw [List.filter_cons, if_neg (by simp [hpa])]
        rw [List.cons_append]
        exact congrArg (a :: ·) hd1
      · intro x hx
        rcases List.mem_cons.mp hx with rfl | hx
        · exact hpa
        · exact hd2 x hx
    · refine ⟨[], ?_, by simp⟩
      have hall : ∀ x ∈ as, p x = true := fun x hx => hp a x (hab x hx) hpa
      rw [List.filter_cons, if_pos (by simp [hpa]), List.filter_eq_self.mpr hall,
        List.nil_append]

/-- The run invariant tying the limiter state to the full history `h` of
admitted timestamps, where `tprev` is the latest admitted timestamp. -/
structure RLInv (N : ℕ) (W : Int) (h : List Int) (rl : TMDBRateLimiter) (tprev : Int) :
    Prop where
  hmax : rl.max_requests = N
  hwin : rl.time_window = W
  hsplit : ∃ d, h = d ++ rl.requests ∧ ∀ x ∈ d, x ≤ tprev - W
  hle : ∀ x ∈ rl.requests, x ≤ tprev
  hlen : rl.requests.length ≤ N
  hsorted : rl.requests.Sorted (· ≤ ·)
  hcount : ∀ t, h.countP (inWindow W t) ≤ N

/-- One call of `wait_if_needed` preserves the run invariant. -/
theorem wait_if_needed_preserves (N : ℕ) (W : Int) (hN : 1 ≤ N)
    (h reqs : List Int) (tprev now : Int)
    (hinv : RLInv N W h ⟨N, W, reqs⟩ tprev) (hnow : tprev ≤ now) :
    RLInv N W (h ++ [(wait_if_needed ⟨N, W, reqs⟩ now).2])
      (wait_if_needed ⟨N, W, reqs⟩ now).1 (wait_if_needed ⟨N, W, reqs⟩ now).2 := by
  obtain ⟨_, _, ⟨d, hsplit, hdbad⟩, hle, hlen, hsorted, hcount⟩ := hinv
  dsimp only at hsplit hle hlen hsorted
  have hp1mono : ∀ x y : Int, x ≤ y → (fun t => decide (now - t < W)) x = true →
      (fun t => decide (now - t < W)) y = true := by
    intro x y hxy hx
    simp only [decide_eq_true_eq] at hx ⊢
    omega
  obtain ⟨d1, hd1eq, hd1bad⟩ := filter_suffix_of_sorted _ hp1mono reqs hsorted
  set r1 := reqs.filter (fun t => decide (now - t < W)) with hr1
  have hlen1 : r1.length ≤ N := le_trans (List.length_filter_le _ _) hlen
  have hle1 : ∀ x ∈ r1, x ≤ tprev := fun x hx => hle x (List.mem_filter.mp hx).1
  have hsorted1 : r1.Sorted (· ≤ ·) :=
    List.Pairwise.sublist (List.filter_sublist _) hsorted
  have hd1bound : ∀ x ∈ d1, x ≤ now - W := by
    intro x hx
    have hb := hd1bad x hx
    simp only [decide_eq_false_iff_not] at hb
    omega
  by_cases hfull : N ≤ r1.length
  · -- quota is full: the wait branch
    obtain ⟨o, tl, hcons⟩ : ∃ o tl, r1 = o :: tl := by
      rcases hq : r1 with _ | ⟨o, tl⟩
      · rw [hq] at hfull
        simp at hfull
        omega
      · exact ⟨o, tl, rfl⟩
    have ho_mem : o ∈ r1 := by
      rw [hcons]; exact List.mem_cons_self o tl
    have ho_in : now - o < W := by
      have hb := (List.mem_filter.mp (by exact ho_mem)).2
      simpa using hb
    have hwt : (0 : Int) < W - (now - o) := by omega
    have hw := wait_if_needed_full ⟨N, W, reqs⟩ now o tl (by exact hcons)
      (by exact hcons ▸ hfull) (by exact hwt)
    rw [hw]
    dsimp only
    have hsorted_cons : (o :: tl).Sorted (· ≤ ·) := hcons ▸ hsorted1
    have hqmono : ∀ x y : Int, x ≤ y →
        (fun t => decide (now + (W - (now - o)) - t < W)) x = true →
        (fun t => decide (now + (W - (now - o)) - t < W)) y = true := by
      intro x y hxy hx
      simp only [decide_eq_true_eq] at hx ⊢
      omega
    obtain ⟨d2, hd2eq, hd2bad⟩ := filter_suffix_of_sorted _ hqmono (o :: tl) hsorted_cons
    set r2 := (o :: tl).filter (fun t => decide (now + (W - (now - o)) - t < W)) with hr2
    have hqo : decide (now + (W - (now - o)) - o < W) = false := by
      simp only [decide_eq_false_iff_not]
      omega
    have hd2bound : ∀ x ∈ d2, x ≤ now + (W - (now - o)) - W := by
      intro x hx
      have hb := hd2bad x hx
      simp only [decide_eq_false_iff_not] at hb
      omega
    have hreqs2len : r2.length ≤ N - 1 := by
      rw [hr2, List.filter_cons, if_neg (by simp [hqo])]
      have h1 : (o :: tl).length ≤ N := hcons ▸ hlen1
      simp only [List.length_cons] at h1
      exact le_trans (List.length_filter_le _ _) (by omega)
    have hle2 : ∀ x ∈ r2, x ≤ tprev := by
      intro x hx
      apply hle1
      rw [hcons]
      rw [hr2] at hx
      exact (List.mem_filter.mp hx).1
    have hnow2 : now ≤ now + (W - (now - o)) := by omega
    refine ⟨rfl, rfl, ?_, ?_, ?_, ?_, ?_⟩
    · refine ⟨d ++ d1 ++ d2, ?_, ?_⟩
      · rw [hsplit, hd1eq, hcons, hd2eq]
        simp [List.append_assoc]
      · intro x hx
        rcases List.mem_append.mp hx with hx2 | hx2
        · rcases List.mem_append.mp hx2 with hx3 | hx3
          · have := hdbad x hx3
            omega
          · have := hd1bound x hx3
            omega
        · have := hd2bound x hx2
          omega
    · intro x hx
      rcases List.mem_append.mp hx with hx2 | hx2
      · exact le_trans (hle2 x hx2) (le_trans hnow hnow2)
      · simp only [List.mem_singleton] at hx2
        omega
    · rw [List.length_append]
      simp only [List.length_singleton]
      omega
    · refine List.pairwise_append.mpr ⟨?_, ?_, ?_⟩
      · exact List.Pairwise.sublist (List.filter_sublist _) hsorted_cons
      · simp
      · intro x hx y hy
        simp only [List.mem_singleton] at hy
        subst hy
        exact le_trans (hle2 x hx) (le_trans hnow hnow2)
    · intro t
      rw [List.countP_append]
      by_cases hPs : inWindow W t (now + (W - (now - o))) = true
      · have ht1 : t < now + (W - (now - o)) ∧ now + (W - (now - o)) ≤ t + W := by
          simpa [inWindow] using hPs
        have hhc : h.countP (inWindow W t)
            = d.countP (inWindow W t) + d1.countP (inWindow W t) + d2.countP (inWindow W t)
              + r2.countP (inWindow W t) := by
          rw [hsplit, hd1eq, hcons, hd2eq]
          simp [List.countP_append, Nat.add_assoc]
        have hd0 : d.countP (inWindow W t) = 0 := by
          rw [List.countP_eq_zero]
          intro x hx hP
          have hb := hdbad x hx
          simp only [inWindow, Bool.and_eq_true, decide_eq_true_eq] at hP
          omega
        have hd10 : d1.countP (inWindow W t) = 0 := by
          rw [List.countP_eq_zero]
          intro x hx hP
          have hb := hd1bound x hx
          simp only [inWindow, Bool.and_eq_true, decide_eq_true_eq] at hP
          omega
        have hd20 : d2.countP (inWindow W t) = 0 := by
          rw [List.countP_eq_zero]
          intro x hx hP
          have hb := hd2bound x hx
          simp only [inWindow, Bool.and_eq_true, decide_eq_true_eq] at hP
          omega
        have hcr2 : r2.countP (inWindow W t) ≤ N - 1 :=
          le_trans (List.countP_le_length _) hreqs2len
        have hsingle : ([now + (W - (now - o))].countP (inWindow W t)) = 1 := by
          simp [List.countP_cons, hPs]
        rw [hsingle, hhc, hd0, hd10, hd20]
        omega
      · have hsingle : ([now + (W - (now - o))].countP (inWindow W t)) = 0 := by
          simp only [List.countP_cons, List.countP_nil]
          simp [hPs]
        rw [hsingle]
        simpa using hcount t
  · -- below quota: admitted at once
    have hw := wait_if_needed_under ⟨N, W, reqs⟩ now (by exact hfull)
    rw [hw]
    dsimp only
    rw [← hr1]
    refine ⟨rfl, rfl, ?_, ?_, ?_, ?_, ?_⟩
    · refine ⟨d ++ d1, ?_, ?_⟩
      · rw [hsplit, hd1eq]
        simp [List.append_assoc]
      · intro x hx
        rcases List.mem_append.mp hx with hx2 | hx2
        · have := hdbad x hx2
          omega
        · have := hd1bound x hx2
          omega
    · intro x hx
      rcases List.mem_append.mp hx with hx2 | hx2
      · exact le_trans (hle1 x hx2) hnow
      · simp only [List.mem_singleton] at hx2
        omega
    · rw [List.length_append]
      simp only [List.length_singleton]
      omega
    · refine List.pairwise_append.mpr ⟨hsorted1, ?_, ?_⟩
      · simp
      · intro x hx y hy
        simp only [List.mem_singleton] at hy
        subst hy
        exact le_trans (hle1 x hx) hnow
    · intro t
      rw [List.countP_append]
      by_cases hPs : inWindow W t now = true
      · have ht1 : t < now ∧ now ≤ t + W := by
          simpa [inWindow] using hPs
        have hhc : h.countP (inWindow W t)
            = d.countP (inWindow W t) + d1.countP (inWindow W t)
              + r1.countP (inWindow W t) := by
          rw [hsplit, hd1eq]
          simp [List.countP_append, Nat.add_assoc]
        have hd0 : d.countP (inWindow W t) = 0 := by
          rw [List.countP_eq_zero]
          intro x hx hP
          have hb := hdbad x hx
          simp only [inWindow, Bool.and_eq_true, decide_eq_true_eq] at hP
          omega
        have hd10 : d1.countP (inWindow W t) = 0 := by
          rw [List.countP_eq_zero]
          intro x hx hP
          have hb := hd1bound x hx
          simp only [inWindow, Bool.and_eq_true, decide_eq_true_eq] at hP
          omega
        have hcr1 : r1.countP (inWindow W t) ≤ r1.length := List.countP_le_length _
        have hsingle : ([now].countP (inWindow W t)) = 1 := by
          simp [List.countP_cons, hPs]
        rw [hsingle, hhc, hd0, hd10]
        omega
      · have hsingle : ([now].countP (inWindow W t)) = 0 := by
          simp only [List.countP_cons, List.countP_nil]
          simp [hPs]
        rw [hsingle]
        simpa using hcount t

/-- The admitted timestamps of a valid run keep every sliding window at or
below the quota. -/
theorem admitSeq_count_le (N : ℕ) (W : Int) (hN : 1 ≤ N) :
    ∀ (ts : List Int) (h : List Int) (rl : TMDBRateLimiter) (tprev : Int),
      RLInv N W h rl tprev → validCalls rl tprev ts = true →
      ∀ t, (h ++ admitSeq rl ts).countP (inWindow W t) ≤ N := by
  intro ts
  induction ts with
  | nil =>
    intro h rl tprev hinv _ t
    simpa [admitSeq] using hinv.hcount t
  | cons now rest ih =>
    intro h rl tprev hinv hv t
    obtain ⟨mr, tw, reqs⟩ := rl
    obtain rfl : N = mr := hinv.hmax.symm
    obtain rfl : W = tw := hinv.hwin.symm
    simp only [validCalls, Bool.and_eq_true, decide_eq_true_eq] at hv
    obtain ⟨hnow, hv2⟩ := hv
    have hstep := wait_if_needed_preserves N W hN h reqs tprev now hinv hnow
    have hrec := ih (h ++ [(wait_if_needed ⟨N, W, reqs⟩ now).2])
      (wait_if_needed ⟨N, W, reqs⟩ now).1 (wait_if_needed ⟨N, W, reqs⟩ now).2 hstep hv2 t
    simpa [admitSeq, List.append_assoc] using hrec

/-- C7: over any valid sequence of calls, the limiter admits at most
`N = 40` timestamps inside any sliding `W = 10`-second window `(t, t+10]`
(the window semantics of the limiter's own `now - t < W` in-window test);
and when the quota is full the caller's request is admitted only at
`now + (W - (now - oldest))`, i.e. it is blocked for exactly (hence at
least) the window length minus the time elapsed since the oldest in-window
request. -/
theorem rate_limiter_rolling_window (ts : List Int) (t0 : Int)
    (hv : validCalls ⟨40, 10, []⟩ t0 ts = true)
    (rl : TMDBRateLimiter) (now : Int) (hN1 : 1 ≤ rl.max_requests)
    (hfull : rl.max_requests ≤
      (rl.requests.filter (fun t => decide (now - t < rl.time_window))).length) :
    (∀ t : Int, ((admitSeq ⟨40, 10, []⟩ ts).countP (inWindow 10 t)) ≤ 40)
    ∧ (wait_if_needed rl now).2
        = now + (rl.time_window
            - (now - ((rl.requests.filter
                (fun t => decide (now - t < rl.time_window))).headD 0))) := by
  constructor
  · intro t
    have hinv : RLInv 40 10 [] ⟨40, 10, []⟩ t0 :=
      ⟨rfl, rfl, ⟨[], rfl, by simp⟩, by simp, by simp, by simp, by simp⟩
    simpa using admitSeq_count_le 40 10 (by norm_num) ts [] ⟨40, 10, []⟩ t0 hinv hv t
  · obtain ⟨o, tl, hcons⟩ :
        ∃ o tl, rl.requests.filter (fun t => decide (now - t < rl.time_window))
          = o :: tl := by
      rcases hq : rl.requests.filter (fun t => decide (now - t < rl.time_window))
        with _ | ⟨o, tl⟩
      · rw [hq] at hfull
        simp at hfull
        omega
      · exact ⟨o, tl, rfl⟩
    have ho_in : now - o < rl.time_window := by
      have hmem : o ∈ rl.requests.filter (fun t => decide (now - t < rl.time_window)) := by
        rw [hcons]
        exact List.mem_cons_self o tl
      have hb := (List.mem_filter.mp hmem).2
      simpa using hb
    have hwt : (0 : Int) < rl.time_window - (now - o) := by omega
    have hw := wait_if_needed_full rl now o tl hcons (hcons ▸ hfull) hwt
    rw [hw, hcons]
    rfl

theorem rate_limiter_rolling_window_witness :
    ((admitSeq ⟨40, 10, []⟩ [0]).countP (inWindow 10 0) ≤ 40)
    ∧ (wait_if_needed ⟨1, 10, [0]⟩ 0).2
        = 0 + ((10 : Int)
            - (0 - (([(0 : Int)].filter (fun t => decide ((0 : Int) - t < 10))).headD 0))) := by
  have h := rate_limiter_rolling_window [0] 0 (by decide) ⟨1, 10, [0]⟩ 0 (by decide) (by decide)
  exact ⟨h.1 0, h.2⟩
